import Mathlib

set_option maxRecDepth 4000

/- Shallow embedding of the keystore handling code in
   src/packages/neotracker-shared-web/src/AppShell.js:
   the functions prependKey (lines 260-267), getPrivateKey (272-381),
   isValidKDFParams (408-417) and extractKeystore (419-462).

   JSON values are modelled by JValue.  JavaScript runtime behaviour is
   modelled faithfully: property access on null or undefined throws a
   TypeError (getField returns an error), typeof null is the string
   "object" (typeofJ), strict equality between a JavaScript value and a
   string or number literal is jEqStr and jEqNum, and the length of a
   JavaScript string counts UTF-16 code units (jsStringLength).

   The external cryptographic primitives used by the source (scrypt-js,
   node crypto.pbkdf2, js-sha3 sha3_256 which returns a lowercase hex
   string, node crypto.createDecipheriv plus decipherBuffer, and the
   neo-one privateKeyToAddress function) are abstracted as a record of
   functions, CryptoPrims; fallible primitives return Except Unit so
   that the try/catch wrappers of the source can be modelled by catchAs.
   Buffer.from(s, hex) is modelled concretely by hexDecode with the node
   semantics of decoding leading pairs of hex digits and stopping at the
   first invalid pair; Buffer.prototype.toString(hex) is toHex;
   Buffer.from(password) is utf8Bytes.  Uncaught TypeErrors surface as
   the distinguished results KSError.jsTypeError and
   ExtractError.jsTypeError, which are not CodedClientError codes. -/

inductive JValue where
  | null
  | undef
  | bool (b : Bool)
  | num (n : Int)
  | str (s : String)
  | arr (xs : List JValue)
  | obj (fields : List (String × JValue))

/-- JavaScript property access `v[k]`: returns the field of an object
(or `undefined` when absent), `undefined` on primitives and arrays
(no JSON-parsed array has string-keyed own properties), and throws a
TypeError (modelled as `.error ()`) on `null` and `undefined`. -/
def getField (v : JValue) (k : String) : Except Unit JValue :=
  match v with
  | .obj fields => .ok ((fields.lookup k).getD JValue.undef)
  | .null => .error ()
  | .undef => .error ()
  | _ => .ok JValue.undef

/-- JavaScript `typeof`: note that `typeof null` is `"object"`. -/
def typeofJ : JValue → String
  | .null => "object"
  | .undef => "undefined"
  | .bool _ => "boolean"
  | .num _ => "number"
  | .str _ => "string"
  | .arr _ => "object"
  | .obj _ => "object"

/-- JavaScript strict equality `v === s` against a string literal. -/
def jEqStr (v : JValue) (s : String) : Bool :=
  match v with
  | .str t => t == s
  | _ => false

/-- JavaScript strict equality `v === n` against a number literal. -/
def jEqNum (v : JValue) (n : Int) : Bool :=
  match v with
  | .num m => m == n
  | _ => false

/-- JavaScript `s.length`: the number of UTF-16 code units. -/
def jsStringLength (s : String) : Nat :=
  s.data.foldl (fun acc c => acc + (if c.toNat ≥ 65536 then 2 else 1)) 0

/-- Value of a hex digit character, case insensitive. -/
def hexDigitVal (c : Char) : Option Nat :=
  if 48 ≤ c.toNat ∧ c.toNat ≤ 57 then some (c.toNat - 48)
  else if 97 ≤ c.toNat ∧ c.toNat ≤ 102 then some (c.toNat - 87)
  else if 65 ≤ c.toNat ∧ c.toNat ≤ 70 then some (c.toNat - 55)
  else none

/-- Node `Buffer.from(string, hex)` semantics on the character list:
decode successive pairs of hex digits and stop (without error) at the
first invalid pair or lone trailing digit. -/
def hexDecodePairs : List Char → List Nat
  | c1 :: c2 :: rest =>
    match hexDigitVal c1, hexDigitVal c2 with
    | some h, some l => (16 * h + l) :: hexDecodePairs rest
    | _, _ => []
  | _ => []

def hexDecode (s : String) : List Nat := hexDecodePairs s.data

/-- Lowercase hex digit character for a value below 16. -/
def hexDigitChar (n : Nat) : Char :=
  if n < 10 then Char.ofNat (48 + n) else Char.ofNat (87 + n)

def byteToHex (b : Nat) : List Char := [hexDigitChar (b / 16 % 16), hexDigitChar (b % 16)]

/-- Node `buffer.toString(hex)`: lowercase hex encoding, two characters
per byte. -/
def toHex (bs : List Nat) : String := String.mk (bs.flatMap byteToHex)

/-- UTF-8 encoding of a single code point, as performed by
`Buffer.from(string)`. -/
def utf8EncodeChar (n : Nat) : List Nat :=
  if n < 128 then [n]
  else if n < 2048 then [192 + n / 64, 128 + n % 64]
  else if n < 65536 then [224 + n / 4096, 128 + n / 64 % 64, 128 + n % 64]
  else [240 + n / 262144, 128 + n / 4096 % 64, 128 + n / 64 % 64, 128 + n % 64]

def utf8Bytes (s : String) : List Nat := s.data.flatMap (fun c => utf8EncodeChar c.toNat)

/-- Coercion of a JavaScript array element to a byte as done by
`Buffer.from(array)`: numbers are truncated modulo 256, anything else
becomes 0. -/
def jsByteOfJ : JValue → Nat
  | .num n => (n % 256).toNat
  | _ => 0

/-- Node `Buffer.from(v, hex)` on an arbitrary JavaScript value: hex
decoding for strings, byte-array view for arrays, and a TypeError for
every other value (null, undefined, numbers, booleans, objects). -/
def bufferFromHexJ : JValue → Except Unit (List Nat)
  | .str s => .ok (hexDecode s)
  | .arr xs => .ok (xs.map jsByteOfJ)
  | _ => .error ()

/-- Iteration of the while loop of prependKey with an explicit bound on
the number of rounds: each round prepends one zero byte while the
length is below 32. -/
def prependKeyFuel : Nat → List Nat → List Nat
  | 0, seed => seed
  | n + 1, seed => if seed.length < 32 then prependKeyFuel n (0 :: seed) else seed

/-- AppShell.js lines 260-267: prepend zero bytes until the buffer is at
least 32 bytes long.  The loop grows the buffer by one byte per
iteration, so it runs at most 32 times; the bound 32 is exact, as
prependKeyFuel_spec below proves. -/
def prependKey (seed : List Nat) : List Nat := prependKeyFuel 32 seed

/-- Abstract interface to the external cryptographic libraries called by
getPrivateKey.  scrypt receives the password bytes, the decoded salt and
the raw JavaScript values of n, r, p and dklen; pbkdf2 receives the
password bytes, the decoded salt and the raw values of c and dklen;
sha3hex is js-sha3 sha3_256, returning the lowercase hex digest string;
decipher is createDecipheriv followed by decipherBuffer, receiving the
raw cipher-name value, the key, the IV and the data;
privateKeyToAddress is the neo-one address encoding. -/
structure CryptoPrims where
  scrypt : List Nat → List Nat → JValue → JValue → JValue → JValue → Except Unit (List Nat)
  pbkdf2 : List Nat → List Nat → JValue → JValue → Except Unit (List Nat)
  sha3hex : List Nat → String
  decipher : JValue → List Nat → List Nat → List Nat → Except Unit (List Nat)
  privateKeyToAddress : String → String

/-- Failure modes of getPrivateKey.  All constructors except jsTypeError
correspond to CodedClientError codes thrown by the source; jsTypeError
models an uncaught JavaScript TypeError escaping the function. -/
inductive KSError where
  | derivedKeyError
  | unsupportedPBKDF2Parameters
  | unsupportedAlgorithm
  | unknownCryptoError
  | wrongPassphrase
  | decipherError
  | wrongAddress
  | jsTypeError
deriving DecidableEq

/-- Failure modes of extractKeystore; jsTypeError models an uncaught
JavaScript TypeError escaping the function. -/
inductive ExtractError where
  | invalidFile
  | invalidJSON
  | invalidFormat
  | jsTypeError
deriving DecidableEq

/-- Run a fallible step inside a JavaScript try/catch that rethrows
every failure as the fixed CodedClientError e. -/
def catchAs {α : Type} (e : KSError) : Except Unit α → Except KSError α
  | .ok a => .ok a
  | .error _ => .error e

/-- Property access whose TypeError is not caught: the error is the
given terminal failure of the surrounding function. -/
def getFieldE (e : KSError) (v : JValue) (k : String) : Except KSError JValue :=
  match getField v k with
  | .ok x => .ok x
  | .error _ => .error e

/-- AppShell.js lines 283-299, the body of the scrypt promise executor:
evaluate Buffer.from(kdfparams.salt, hex) and the raw parameter values,
then call the scrypt library.  Any throw inside the executor rejects the
promise. -/
def scryptAttempt (C : CryptoPrims) (kdfparams : JValue) (password : String) :
    Except Unit (List Nat) :=
  match getField kdfparams "salt" with
  | .error e => .error e
  | .ok saltJ =>
    match bufferFromHexJ saltJ with
    | .error e => .error e
    | .ok salt =>
      match getField kdfparams "n" with
      | .error e => .error e
      | .ok nJ =>
        match getField kdfparams "r" with
        | .error e => .error e
        | .ok rJ =>
          match getField kdfparams "p" with
          | .error e => .error e
          | .ok pJ =>
            match getField kdfparams "dklen" with
            | .error e => .error e
            | .ok dklenJ => C.scrypt (utf8Bytes password) salt nJ rJ pJ dklenJ

/-- AppShell.js lines 313-328, the body of the pbkdf2 promise executor. -/
def pbkdf2Attempt (C : CryptoPrims) (kdfparams : JValue) (password : String) :
    Except Unit (List Nat) :=
  match getField kdfparams "salt" with
  | .error e => .error e
  | .ok saltJ =>
    match bufferFromHexJ saltJ with
    | .error e => .error e
    | .ok salt =>
      match getField kdfparams "c" with
      | .error e => .error e
      | .ok cJ =>
        match getField kdfparams "dklen" with
        | .error e => .error e
        | .ok dklenJ => C.pbkdf2 (utf8Bytes password) salt cJ dklenJ

/-- AppShell.js lines 279-339: destructure kdfparams from
keystore.crypto, dispatch on keystore.crypto.kdf, check prf for pbkdf2,
and run the key derivation with its failures rethrown as
DECRYPT_KEYSTORE_DERIVED_KEY_ERROR.  Returns the crypto object together
with the derived key. -/
def deriveKeyStage (C : CryptoPrims) (keystore : JValue) (password : String) :
    Except KSError (JValue × List Nat) :=
  match getFieldE KSError.jsTypeError keystore "crypto" with
  | .error e => .error e
  | .ok cryptoObj =>
    match getFieldE KSError.jsTypeError cryptoObj "kdfparams" with
    | .error e => .error e
    | .ok kdfparams =>
      match getFieldE KSError.jsTypeError cryptoObj "kdf" with
      | .error e => .error e
      | .ok kdfJ =>
        if jEqStr kdfJ "scrypt" then
          match catchAs KSError.derivedKeyError (scryptAttempt C kdfparams password) with
          | .error e => .error e
          | .ok dk => .ok (cryptoObj, dk)
        else if jEqStr kdfJ "pbkdf2" then
          match getFieldE KSError.jsTypeError kdfparams "prf" with
          | .error e => .error e
          | .ok prfJ =>
            if jEqStr prfJ "hmac-sha256" then
              match catchAs KSError.derivedKeyError (pbkdf2Attempt C kdfparams password) with
              | .error e => .error e
              | .ok dk => .ok (cryptoObj, dk)
            else .error KSError.unsupportedPBKDF2Parameters
        else .error KSError.unsupportedAlgorithm

/-- AppShell.js lines 343-351, the try block around the integrity code:
decode keystore.crypto.ciphertext from hex and compute
sha3_256(derivedKey.slice(16, 32) concatenated with the ciphertext),
which js-sha3 returns as a lowercase hex string. -/
def macAttempt (C : CryptoPrims) (cryptoObj : JValue) (derivedKey : List Nat) :
    Except Unit (List Nat × String) :=
  match getField cryptoObj "ciphertext" with
  | .error e => .error e
  | .ok ctJ =>
    match bufferFromHexJ ctJ with
    | .error e => .error e
    | .ok ciphertext =>
      .ok (ciphertext, C.sha3hex ((derivedKey.drop 16).take 16 ++ ciphertext))

/-- AppShell.js lines 341-356: compute the integrity code (failures
rethrown as DECRYPT_KEYSTORE_UNKNOWN_CRYPTO_ERROR) and compare it,
strictly and case sensitively, with keystore.crypto.mac; on mismatch
throw DECRYPT_KEYSTORE_WRONG_PASSPHRASE.  Returns the decoded
ciphertext. -/
def macStage (C : CryptoPrims) (cryptoObj : JValue) (derivedKey : List Nat) :
    Except KSError (List Nat) :=
  match catchAs KSError.unknownCryptoError (macAttempt C cryptoObj derivedKey) with
  | .error e => .error e
  | .ok p =>
    match getFieldE KSError.jsTypeError cryptoObj "mac" with
    | .error e => .error e
    | .ok macJ =>
      if jEqStr macJ p.2 then .ok p.1 else .error KSError.wrongPassphrase

/-- AppShell.js lines 360-365, the try block around decryption: build
the decipher from keystore.crypto.cipher, derivedKey.slice(0, 16) and
Buffer.from(keystore.crypto.cipherparams.iv, hex), then decrypt the
ciphertext. -/
def decipherAttempt (C : CryptoPrims) (cryptoObj : JValue)
    (derivedKey ciphertext : List Nat) : Except Unit (List Nat) :=
  match getField cryptoObj "cipher" with
  | .error e => .error e
  | .ok cipherJ =>
    match getField cryptoObj "cipherparams" with
    | .error e => .error e
    | .ok cpJ =>
      match getField cpJ "iv" with
      | .error e => .error e
      | .ok ivJ =>
        match bufferFromHexJ ivJ with
        | .error e => .error e
        | .ok iv => C.decipher cipherJ (derivedKey.take 16) iv ciphertext

/-- AppShell.js lines 358-380: decrypt (failures rethrown as
DECRYPT_KEYSTORE_DECIPHER_ERROR), left-pad the seed with prependKey,
hex-encode it, derive its address with privateKeyToAddress and compare
strictly with keystore.address; on mismatch throw
DECRYPT_KEYSTORE_WRONG_ADDRESS, otherwise return the hex private key. -/
def decryptStage (C : CryptoPrims) (keystore cryptoObj : JValue)
    (derivedKey ciphertext : List Nat) : Except KSError String :=
  match catchAs KSError.decipherError (decipherAttempt C cryptoObj derivedKey ciphertext) with
  | .error e => .error e
  | .ok deciphered =>
    let privateKey := toHex (prependKey deciphered)
    let address := C.privateKeyToAddress privateKey
    match getFieldE KSError.jsTypeError keystore "address" with
    | .error e => .error e
    | .ok addrJ =>
      if jEqStr addrJ address then .ok privateKey else .error KSError.wrongAddress

/-- AppShell.js lines 272-381, getPrivateKey: key derivation, then the
integrity check, then decryption and the address check. -/
def getPrivateKey (C : CryptoPrims) (keystore : JValue) (password : String) :
    Except KSError String :=
  match deriveKeyStage C keystore password with
  | .error e => .error e
  | .ok p =>
    match macStage C p.1 p.2 with
    | .error e => .error e
    | .ok ciphertext => decryptStage C keystore p.1 p.2 ciphertext

/-- Short-circuit JavaScript conjunction of two fallible boolean
expressions: the right operand is only evaluated when the left one
evaluated to true. -/
def candE (a : Except Unit Bool) (b : Unit → Except Unit Bool) : Except Unit Bool :=
  match a with
  | .error e => .error e
  | .ok false => .ok false
  | .ok true => b ()

/-- Short-circuit JavaScript disjunction of two fallible boolean
expressions. -/
def corE (a : Except Unit Bool) (b : Unit → Except Unit Bool) : Except Unit Bool :=
  match a with
  | .error e => .error e
  | .ok true => .ok true
  | .ok false => b ()

/-- Evaluation of `typeof v[k] === ty`. -/
def fieldTypeIs (v : JValue) (k ty : String) : Except Unit Bool :=
  match getField v k with
  | .error e => .error e
  | .ok x => .ok (typeofJ x == ty)

/-- Evaluation of `v[k] === n` for a number literal n. -/
def fieldEqNum (v : JValue) (k : String) (n : Int) : Except Unit Bool :=
  match getField v k with
  | .error e => .error e
  | .ok x => .ok (jEqNum x n)

/-- Evaluation of `v[k].length === n`: strings report their UTF-16
length, arrays their element count, null and undefined throw, and on
other primitives the length property is undefined, which is not n. -/
def fieldJsLenEq (v : JValue) (k : String) (n : Nat) : Except Unit Bool :=
  match getField v k with
  | .error e => .error e
  | .ok (.str s) => .ok (jsStringLength s == n)
  | .ok .null => .error ()
  | .ok .undef => .error ()
  | .ok (.arr xs) => .ok (xs.length == n)
  | .ok _ => .ok false

/-- Two-step property access `v[k1][k2]`. -/
def getPath2 (v : JValue) (k1 k2 : String) : Except Unit JValue :=
  match getField v k1 with
  | .error e => .error e
  | .ok x => getField x k2

/-- Evaluation of `typeof v[k1][k2] === ty`. -/
def pathTypeIs2 (v : JValue) (k1 k2 ty : String) : Except Unit Bool :=
  match getPath2 v k1 k2 with
  | .error e => .error e
  | .ok x => .ok (typeofJ x == ty)

/-- Three-step property access `v[k1][k2][k3]`. -/
def getPath3 (v : JValue) (k1 k2 k3 : String) : Except Unit JValue :=
  match getPath2 v k1 k2 with
  | .error e => .error e
  | .ok x => getField x k3

/-- Evaluation of `typeof v[k1][k2][k3] === ty`. -/
def pathTypeIs3 (v : JValue) (k1 k2 k3 ty : String) : Except Unit Bool :=
  match getPath3 v k1 k2 k3 with
  | .error e => .error e
  | .ok x => .ok (typeofJ x == ty)

/-- AppShell.js lines 408-417, isValidKDFParams: dklen must be a number
and salt a string, and then either kdf is the string scrypt and n, r
and p are numbers, or kdf is the string pbkdf2 and c is a number and
prf is a string.  The value of prf is not inspected beyond its type.
The kdf argument is kept as a raw JavaScript value because the flow
type annotation of the source has no runtime effect. -/
def isValidKDFParams (kdf : JValue) (kdfparams : JValue) : Except Unit Bool :=
  candE (fieldTypeIs kdfparams "dklen" "number") (fun _ =>
  candE (fieldTypeIs kdfparams "salt" "string") (fun _ =>
  corE (candE (.ok (jEqStr kdf "scrypt")) (fun _ =>
        candE (fieldTypeIs kdfparams "n" "number") (fun _ =>
        candE (fieldTypeIs kdfparams "r" "number") (fun _ =>
        fieldTypeIs kdfparams "p" "number"))))
       (fun _ =>
        candE (.ok (jEqStr kdf "pbkdf2")) (fun _ =>
        candE (fieldTypeIs kdfparams "c" "number") (fun _ =>
        fieldTypeIs kdfparams "prf" "string")))))

/-- Evaluation of the isValidKDFParams call site on line 452, with its
two argument expressions keystore.crypto.kdf and
keystore.crypto.kdfparams evaluated left to right. -/
def kdfVariantOK (keystore : JValue) : Except Unit Bool :=
  match getPath2 keystore "crypto" "kdf" with
  | .error e => .error e
  | .ok kdfJ =>
    match getPath2 keystore "crypto" "kdfparams" with
    | .error e => .error e
    | .ok kpJ => isValidKDFParams kdfJ kpJ

/-- AppShell.js lines 437-455, the schema condition of extractKeystore,
with JavaScript left-to-right short-circuit evaluation.  Each conjunct
re-reads the properties it needs, exactly as the source does. -/
def keystoreSchemaOK (keystore : JValue) : Except Unit Bool :=
  candE (.ok (typeofJ keystore == "object")) (fun _ =>
  candE (fieldTypeIs keystore "version" "number") (fun _ =>
  candE (fieldEqNum keystore "version" 3) (fun _ =>
  candE (fieldTypeIs keystore "id" "string") (fun _ =>
  candE (fieldTypeIs keystore "address" "string") (fun _ =>
  candE (fieldJsLenEq keystore "address" 34) (fun _ =>
  candE (fieldTypeIs keystore "crypto" "object") (fun _ =>
  candE (pathTypeIs2 keystore "crypto" "ciphertext" "string") (fun _ =>
  candE (pathTypeIs2 keystore "crypto" "cipherparams" "object") (fun _ =>
  candE (pathTypeIs3 keystore "crypto" "cipherparams" "iv" "string") (fun _ =>
  candE (pathTypeIs2 keystore "crypto" "cipher" "string") (fun _ =>
  candE (pathTypeIs2 keystore "crypto" "kdf" "string") (fun _ =>
  candE (pathTypeIs2 keystore "crypto" "kdfparams" "object") (fun _ =>
  candE (kdfVariantOK keystore) (fun _ =>
  pathTypeIs2 keystore "crypto" "mac" "string"))))))))))))))

/-- Input of extractKeystore: the text property is either a string or a
value of some other type. -/
inductive FileInput where
  | nonString
  | text (s : String)

/-- AppShell.js lines 419-462, extractKeystore: reject non-string input
with EXTRACT_KEYSTORE_INVALID_FILE, JSON parse failure with
EXTRACT_KEYSTORE_INVALID_JSON, schema failure with
EXTRACT_KEYSTORE_INVALID_FORMAT, and return the parsed document itself
on success.  The parse argument abstracts JSON.parse; an uncaught
TypeError raised while the schema condition is evaluated surfaces as
jsTypeError. -/
def extractKeystore (parse : String → Option JValue) (input : FileInput) :
    Except ExtractError JValue :=
  match input with
  | .nonString => .error ExtractError.invalidFile
  | .text s =>
    match parse s with
    | none => .error ExtractError.invalidJSON
    | some keystore =>
      match keystoreSchemaOK keystore with
      | .error _ => .error ExtractError.jsTypeError
      | .ok true => .ok keystore
      | .ok false => .error ExtractError.invalidFormat

/- Basic lemmas about the embedding. -/

theorem jEqStr_iff {v : JValue} {s : String} : jEqStr v s = true ↔ v = JValue.str s := by
  cases v <;> simp [jEqStr]

theorem prependKeyFuel_spec : ∀ (n : Nat) (s : List Nat), 32 - s.length ≤ n →
    prependKeyFuel n s = List.replicate (32 - s.length) 0 ++ s := by
  intro n
  induction n with
  | zero =>
    intro s h
    have hz : 32 - s.length = 0 := by omega
    rw [prependKeyFuel, hz]
    simp
  | succ k ih =>
    intro s h
    rw [prependKeyFuel]
    by_cases hl : s.length < 32
    · rw [if_pos hl, ih (0 :: s) (by simp only [List.length_cons]; omega)]
      have hsplit : 32 - s.length = (32 - (s.length + 1)) + 1 := by omega
      rw [List.length_cons, hsplit, List.replicate_succ']
      simp
    · have hz : 32 - s.length = 0 := by omega
      rw [if_neg hl, hz]
      simp

theorem prependKey_closed (s : List Nat) :
    prependKey s = List.replicate (32 - s.length) 0 ++ s :=
  prependKeyFuel_spec 32 s (by omega)

theorem prependKey_length (s : List Nat) :
    (prependKey s).length = max 32 s.length := by
  rw [prependKey_closed]
  simp only [List.length_append, List.length_replicate]
  omega

theorem toHex_length (bs : List Nat) : (toHex bs).length = 2 * bs.length := by
  unfold toHex
  induction bs with
  | nil => rfl
  | cons b rest ih =>
    simp only [List.flatMap_cons, byteToHex] at *
    simp only [String.length] at *
    simp only [List.length_append, List.length_cons, List.length_nil] at *
    omega

theorem candE_eq_ok_true {a : Except Unit Bool} {b : Unit → Except Unit Bool} :
    candE a b = .ok true ↔ a = .ok true ∧ b () = .ok true := by
  cases a with
  | error e => simp [candE]
  | ok v => cases v <;> simp [candE]

theorem corE_eq_ok_true {a : Except Unit Bool} {b : Unit → Except Unit Bool} :
    corE a b = .ok true ↔ a = .ok true ∨ (a = .ok false ∧ b () = .ok true) := by
  cases a with
  | error e => simp [corE]
  | ok v => cases v <;> simp [corE]

theorem typeofJ_string {x : JValue} (h : typeofJ x = "string") : ∃ s, x = JValue.str s := by
  cases x <;> simp_all [typeofJ]

theorem typeofJ_number {x : JValue} (h : typeofJ x = "number") : ∃ n, x = JValue.num n := by
  cases x <;> simp_all [typeofJ]

theorem fieldTypeIs_ok_true {v : JValue} {k ty : String}
    (h : fieldTypeIs v k ty = .ok true) :
    ∃ x, getField v k = .ok x ∧ typeofJ x = ty := by
  unfold fieldTypeIs at h
  cases hg : getField v k with
  | error e => rw [hg] at h; exact absurd h (by simp)
  | ok x =>
    rw [hg] at h
    simp only [Except.ok.injEq] at h
    exact ⟨x, rfl, by simpa using h⟩

theorem pathTypeIs2_ok_true {v : JValue} {k1 k2 ty : String}
    (h : pathTypeIs2 v k1 k2 ty = .ok true) :
    ∃ x, getPath2 v k1 k2 = .ok x ∧ typeofJ x = ty := by
  unfold pathTypeIs2 at h
  cases hg : getPath2 v k1 k2 with
  | error e => rw [hg] at h; exact absurd h (by simp)
  | ok x =>
    rw [hg] at h
    simp only [Except.ok.injEq] at h
    exact ⟨x, rfl, by simpa using h⟩

/-- A value whose typeof is the string object and that has a string
property at some key must be an object node: null throws on access,
arrays yield undefined. -/
theorem object_with_string_field {x y : JValue} {k : String}
    (hty : typeofJ x = "object") (hget : getField x k = .ok y)
    (hys : typeofJ y = "string") : ∃ fs, x = JValue.obj fs := by
  cases x with
  | obj fs => exact ⟨fs, rfl⟩
  | null => exact absurd hget (by simp [getField])
  | arr xs =>
    simp only [getField, Except.ok.injEq] at hget
    rw [← hget] at hys
    exact absurd hys (by decide)
  | undef => simp [typeofJ] at hty
  | bool b => simp [typeofJ] at hty
  | num n => simp [typeofJ] at hty
  | str s => simp [typeofJ] at hty

/- Congruence lemmas: each stage only consults the primitives it calls,
so replacing the other primitives cannot change its result. -/

theorem scryptAttempt_congr {C C' : CryptoPrims} (h : C.scrypt = C'.scrypt)
    (kp : JValue) (pw : String) : scryptAttempt C kp pw = scryptAttempt C' kp pw := by
  unfold scryptAttempt
  rw [h]

theorem pbkdf2Attempt_congr {C C' : CryptoPrims} (h : C.pbkdf2 = C'.pbkdf2)
    (kp : JValue) (pw : String) : pbkdf2Attempt C kp pw = pbkdf2Attempt C' kp pw := by
  unfold pbkdf2Attempt
  rw [h]

theorem macAttempt_congr {C C' : CryptoPrims} (h : C.sha3hex = C'.sha3hex)
    (co : JValue) (dk : List Nat) : macAttempt C co dk = macAttempt C' co dk := by
  unfold macAttempt
  rw [h]

theorem deriveKeyStage_congr {C C' : CryptoPrims} (hs : C.scrypt = C'.scrypt)
    (hp : C.pbkdf2 = C'.pbkdf2) (ks : JValue) (pw : String) :
    deriveKeyStage C ks pw = deriveKeyStage C' ks pw := by
  unfold deriveKeyStage
  simp only [scryptAttempt_congr hs, pbkdf2Attempt_congr hp]

theorem macStage_congr {C C' : CryptoPrims} (h : C.sha3hex = C'.sha3hex)
    (co : JValue) (dk : List Nat) : macStage C co dk = macStage C' co dk := by
  unfold macStage
  simp only [macAttempt_congr h]

/- Shape lemmas for the possible failures of each stage. -/

theorem catchAs_error {α : Type} {e e' : KSError} {x : Except Unit α}
    (h : catchAs e x = .error e') : e' = e := by
  cases x with
  | ok a => simp [catchAs] at h
  | error u => simp [catchAs] at h; exact h.symm

theorem getFieldE_error {e e' : KSError} {v : JValue} {k : String}
    (h : getFieldE e v k = .error e') : e' = e := by
  unfold getFieldE at h
  cases hg : getField v k with
  | ok x => rw [hg] at h; simp at h
  | error u => rw [hg] at h; simp at h; exact h.symm

theorem macStage_error_shape {C : CryptoPrims} {co : JValue} {dk : List Nat} {e : KSError}
    (h : macStage C co dk = .error e) :
    e = KSError.unknownCryptoError ∨ e = KSError.jsTypeError ∨ e = KSError.wrongPassphrase := by
  unfold macStage at h
  cases h1 : catchAs KSError.unknownCryptoError (macAttempt C co dk) with
  | error e1 =>
    rw [h1] at h
    simp at h
    left
    rw [← h]
    exact catchAs_error h1
  | ok p =>
    rw [h1] at h
    cases h2 : getFieldE KSError.jsTypeError co "mac" with
    | error e2 =>
      rw [h2] at h
      simp at h
      right; left
      rw [← h]
      exact getFieldE_error h2
    | ok macJ =>
      rw [h2] at h
      by_cases hj : jEqStr macJ p.2 = true
      · simp [hj] at h
      · simp [hj] at h
        right; right
        exact h.symm

theorem decryptStage_error_shape {C : CryptoPrims} {ks co : JValue} {dk ct : List Nat}
    {e : KSError} (h : decryptStage C ks co dk ct = .error e) :
    e = KSError.decipherError ∨ e = KSError.jsTypeError ∨ e = KSError.wrongAddress := by
  unfold decryptStage at h
  cases h1 : catchAs KSError.decipherError (decipherAttempt C co dk ct) with
  | error e1 =>
    rw [h1] at h
    simp at h
    left
    rw [← h]
    exact catchAs_error h1
  | ok d =>
    rw [h1] at h
    simp only [] at h
    cases h2 : getFieldE KSError.jsTypeError ks "address" with
    | error e2 =>
      rw [h2] at h
      simp at h
      right; left
      rw [← h]
      exact getFieldE_error h2
    | ok addrJ =>
      rw [h2] at h
      by_cases hj : jEqStr addrJ (C.privateKeyToAddress (toHex (prependKey d))) = true
      · simp [hj] at h
      · simp [hj] at h
        right; right
        exact h.symm

theorem isValidKDFParams_ok_kdf {kdf kp : JValue} (h : isValidKDFParams kdf kp = .ok true) :
    jEqStr kdf "scrypt" = true ∨ jEqStr kdf "pbkdf2" = true := by
  unfold isValidKDFParams at h
  rw [candE_eq_ok_true] at h
  rw [candE_eq_ok_true] at h
  rcases h with ⟨-, -, h⟩
  rw [corE_eq_ok_true] at h
  rcases h with h | ⟨-, h⟩
  · rw [candE_eq_ok_true] at h
    left
    simpa using h.1
  · rw [candE_eq_ok_true] at h
    right
    simpa using h.1

theorem getFieldE_ok_iff {e : KSError} {v x : JValue} {k : String} :
    getFieldE e v k = .ok x ↔ getField v k = .ok x := by
  unfold getFieldE
  cases hg : getField v k <;> simp

/-- Successful extraction forces a textual input, a successful parse of
that text to the returned document, and a fully passed schema check. -/
theorem extractKeystore_ok_inv {parse : String → Option JValue} {inp : FileInput}
    {ks : JValue} (h : extractKeystore parse inp = .ok ks) :
    (∃ s, inp = FileInput.text s ∧ parse s = some ks) ∧ keystoreSchemaOK ks = .ok true := by
  cases inp with
  | nonString => simp [extractKeystore] at h
  | text s =>
    simp only [extractKeystore] at h
    cases hp : parse s with
    | none => simp only [hp] at h; simp at h
    | some k =>
      simp only [hp] at h
      cases hs : keystoreSchemaOK k with
      | error e => simp only [hs] at h; simp at h
      | ok b =>
        cases b with
        | false => simp only [hs] at h; simp at h
        | true =>
          simp only [hs] at h
          simp at h
          subst h
          exact ⟨⟨s, rfl, hp⟩, hs⟩

/-- A document that passes the schema check has an object-valued crypto
property whose kdf property is the string scrypt or the string
pbkdf2. -/
theorem schemaOK_kdf {ks : JValue} (h : keystoreSchemaOK ks = .ok true) :
    ∃ cf kdfs, getField ks "crypto" = .ok (JValue.obj cf) ∧
      getField (JValue.obj cf) "kdf" = .ok (JValue.str kdfs) ∧
      (kdfs = "scrypt" ∨ kdfs = "pbkdf2") := by
  unfold keystoreSchemaOK at h
  simp only [candE_eq_ok_true] at h
  obtain ⟨h1, h2, h3, h4, h5, h6, h7, h8, h9, h10, h11, h12, h13, h14, h15⟩ := h
  obtain ⟨co, hco, hcoty⟩ := fieldTypeIs_ok_true h7
  obtain ⟨ctJ, hct, hctty⟩ := pathTypeIs2_ok_true h8
  obtain ⟨ct, rfl⟩ := typeofJ_string hctty
  unfold getPath2 at hct
  simp only [hco] at hct
  obtain ⟨cf, rfl⟩ := object_with_string_field hcoty hct rfl
  obtain ⟨kdfJ, hkdf, hkdfty⟩ := pathTypeIs2_ok_true h12
  unfold getPath2 at hkdf
  simp only [hco] at hkdf
  obtain ⟨kdfs, rfl⟩ := typeofJ_string hkdfty
  unfold kdfVariantOK getPath2 at h14
  have hkp : getField (JValue.obj cf) "kdfparams" =
      .ok ((cf.lookup "kdfparams").getD JValue.undef) := rfl
  simp only [hco, hkdf, hkp] at h14
  have hkk := isValidKDFParams_ok_kdf h14
  refine ⟨cf, kdfs, hco, hkdf, ?_⟩
  rcases hkk with hk | hk
  · left; simpa using jEqStr_iff.mp hk
  · right; simpa using jEqStr_iff.mp hk

/- Concrete fixtures used by the witnesses: a schema-valid scrypt
keystore, variants of it, and concrete primitive instantiations. -/

def addr34 : String := "A123456789012345678901234567890123"

def kdfparamsW : JValue := JValue.obj
  [("dklen", JValue.num 32), ("salt", JValue.str "ab"),
   ("n", JValue.num 16384), ("r", JValue.num 8), ("p", JValue.num 1)]

def cryptoW : JValue := JValue.obj
  [("ciphertext", JValue.str "00ff"),
   ("cipherparams", JValue.obj [("iv", JValue.str "00")]),
   ("cipher", JValue.str "aes-128-ctr"),
   ("kdf", JValue.str "scrypt"),
   ("kdfparams", kdfparamsW),
   ("mac", JValue.str "aa")]

def ksW : JValue := JValue.obj
  [("version", JValue.num 3), ("id", JValue.str "W"),
   ("address", JValue.str addr34), ("crypto", cryptoW)]

def CW : CryptoPrims where
  scrypt := fun _ _ _ _ _ _ => .ok (List.replicate 32 7)
  pbkdf2 := fun _ _ _ _ => .error ()
  sha3hex := fun _ => "aa"
  decipher := fun _ _ _ _ => .ok (List.replicate 32 3)
  privateKeyToAddress := fun _ => addr34

def pkW : String := toHex (List.replicate 32 3)

def cryptoBadMac : JValue := JValue.obj
  [("ciphertext", JValue.str "00ff"),
   ("cipherparams", JValue.obj [("iv", JValue.str "00")]),
   ("cipher", JValue.str "aes-128-ctr"),
   ("kdf", JValue.str "scrypt"),
   ("kdfparams", kdfparamsW),
   ("mac", JValue.str "bb")]

def ksBadMac : JValue := JValue.obj
  [("version", JValue.num 3), ("id", JValue.str "W"),
   ("address", JValue.str addr34), ("crypto", cryptoBadMac)]

def CWnoDecipher : CryptoPrims := { CW with decipher := fun _ _ _ _ => .error () }

def CW33 : CryptoPrims := { CW with decipher := fun _ _ _ _ => .ok (List.replicate 33 3) }

def kdfparamsP : JValue := JValue.obj
  [("dklen", JValue.num 32), ("salt", JValue.str "ab"),
   ("c", JValue.num 262144), ("prf", JValue.str "hmac-sha512")]

def cryptoP : JValue := JValue.obj
  [("ciphertext", JValue.str "00ff"),
   ("cipherparams", JValue.obj [("iv", JValue.str "00")]),
   ("cipher", JValue.str "aes-128-ctr"),
   ("kdf", JValue.str "pbkdf2"),
   ("kdfparams", kdfparamsP),
   ("mac", JValue.str "aa")]

def ksP : JValue := JValue.obj
  [("version", JValue.num 3), ("id", JValue.str "P"),
   ("address", JValue.str addr34), ("crypto", cryptoP)]

def ksNullCrypto : JValue := JValue.obj
  [("version", JValue.num 3), ("id", JValue.str "N"),
   ("address", JValue.str addr34), ("crypto", JValue.null)]

def ksWextra : JValue := JValue.obj
  [("version", JValue.num 3), ("id", JValue.str "W"),
   ("address", JValue.str addr34), ("crypto", cryptoW),
   ("extra", JValue.bool true)]

/-- C5: for every decrypted seed shorter than 32 bytes, prependKey
prepends zero bytes until the result is exactly 32 bytes long, and the
padding is lossless: the result is a block of zero bytes followed by
the original seed, which is therefore its suffix. -/
theorem prependKeyLeftPads (s : List Nat) (h : s.length < 32) :
    prependKey s = List.replicate (32 - s.length) 0 ++ s ∧ (prependKey s).length = 32 := by
  refine ⟨prependKey_closed s, ?_⟩
  rw [prependKey_closed]
  simp only [List.length_append, List.length_replicate]
  omega

theorem prependKeyLeftPads_witness :
    prependKey [1, 2, 3] = List.replicate 29 0 ++ [1, 2, 3] ∧
      (prependKey [1, 2, 3]).length = 32 :=
  prependKeyLeftPads [1, 2, 3] (by decide)

/-- C6: extractKeystore rejects non-string input with InvalidFile for
every parse behaviour (so before any parsing), and rejects a string
that JSON.parse cannot parse with InvalidJSON, before any schema
validation is reached. -/
theorem extractInputErrors :
    (∀ parse : String → Option JValue,
      extractKeystore parse FileInput.nonString = .error ExtractError.invalidFile) ∧
    (∀ (parse : String → Option JValue) (s : String), parse s = none →
      extractKeystore parse (FileInput.text s) = .error ExtractError.invalidJSON) := by
  constructor
  · intro parse
    rfl
  · intro parse s h
    simp only [extractKeystore, h]

theorem extractInputErrors_witness :
    extractKeystore (fun _ => none) (FileInput.text "not json") =
      .error ExtractError.invalidJSON :=
  extractInputErrors.2 (fun _ => none) "not json" rfl

/-- C7: when keystore.crypto.kdf is neither the string scrypt nor the
string pbkdf2, getPrivateKey fails with UnsupportedAlgorithm.  The
statement quantifies over every primitive record C and the conclusion
does not mention C, so no key derivation, MAC computation or
decryption influences the result. -/
theorem unsupportedKdfAlgorithm
    (C : CryptoPrims) (ks : JValue) (pw : String) (co kpJ kdfJ : JValue)
    (hco : getFieldE KSError.jsTypeError ks "crypto" = .ok co)
    (hkp : getFieldE KSError.jsTypeError co "kdfparams" = .ok kpJ)
    (hkdf : getFieldE KSError.jsTypeError co "kdf" = .ok kdfJ)
    (hns : jEqStr kdfJ "scrypt" = false)
    (hnp : jEqStr kdfJ "pbkdf2" = false) :
    getPrivateKey C ks pw = .error KSError.unsupportedAlgorithm := by
  unfold getPrivateKey deriveKeyStage
  simp [hco, hkp, hkdf, hns, hnp]

theorem unsupportedKdfAlgorithm_witness :
    getPrivateKey CW
      (JValue.obj [("crypto", JValue.obj [("kdfparams", JValue.obj []), ("kdf", JValue.str "bogus")])])
      "pw" = .error KSError.unsupportedAlgorithm :=
  unsupportedKdfAlgorithm CW
    (JValue.obj [("crypto", JValue.obj [("kdfparams", JValue.obj []), ("kdf", JValue.str "bogus")])])
    "pw" (JValue.obj [("kdfparams", JValue.obj []), ("kdf", JValue.str "bogus")])
    (JValue.obj []) (JValue.str "bogus") rfl rfl rfl rfl rfl

/-- C8: getPrivateKey is a pure function of the keystore document and
the password: the embedding is a Lean function, so two invocations with
equal inputs are definitionally equal and the document is never
mutated; beyond that, this frame theorem shows the result depends on
the document only through its crypto and address properties, so no
hidden state enters the computation. -/
theorem getPrivateKeyPureFrame
    (C : CryptoPrims) (ks ks' : JValue) (pw : String)
    (hc : getFieldE KSError.jsTypeError ks "crypto" =
      getFieldE KSError.jsTypeError ks' "crypto")
    (ha : getFieldE KSError.jsTypeError ks "address" =
      getFieldE KSError.jsTypeError ks' "address") :
    getPrivateKey C ks pw = getPrivateKey C ks' pw := by
  unfold getPrivateKey deriveKeyStage decryptStage
  simp only [hc, ha]

theorem getPrivateKeyPureFrame_witness :
    getPrivateKey CW ksW "pw" = getPrivateKey CW ksWextra "pw" :=
  getPrivateKeyPureFrame CW ksW ksWextra "pw" rfl rfl

/-- C10: prependKey returns every buffer of length at least 32
unchanged, and when the deciphered plaintext d is longer than 32 bytes
a successful getPrivateKey run returns the hex encoding of d itself,
whose length 2 times the length of d exceeds 64 characters; nothing is
trimmed to 32 bytes. -/
theorem prependKeyNoTruncate :
    (∀ s : List Nat, 32 ≤ s.length → prependKey s = s) ∧
    (∀ (C : CryptoPrims) (ks : JValue) (pw : String) (co : JValue)
      (dk ct d : List Nat) (pk : String),
      deriveKeyStage C ks pw = .ok (co, dk) → macStage C co dk = .ok ct →
      decipherAttempt C co dk ct = .ok d → 32 < d.length →
      getPrivateKey C ks pw = .ok pk →
      pk = toHex d ∧ pk.length = 2 * d.length ∧ 64 < pk.length) := by
  have hid : ∀ s : List Nat, 32 ≤ s.length → prependKey s = s := by
    intro s h
    rw [prependKey_closed]
    have hz : 32 - s.length = 0 := by omega
    rw [hz]
    simp
  refine ⟨hid, ?_⟩
  intro C ks pw co dk ct d pk hderive hmacs hd hlen hok
  unfold getPrivateKey at hok
  simp only [hderive] at hok
  simp only [hmacs] at hok
  unfold decryptStage at hok
  have hca : catchAs KSError.decipherError (decipherAttempt C co dk ct) = .ok d := by
    rw [hd]
    rfl
  simp only [hca] at hok
  cases ha : getFieldE KSError.jsTypeError ks "address" with
  | error e => simp only [ha] at hok; simp at hok
  | ok addrJ =>
    simp only [ha] at hok
    by_cases hj : jEqStr addrJ (C.privateKeyToAddress (toHex (prependKey d))) = true
    · simp only [hj, if_true] at hok
      simp only [Except.ok.injEq] at hok
      have hpre : prependKey d = d := hid d (by omega)
      rw [hpre] at hok
      subst hok
      refine ⟨rfl, toHex_length d, ?_⟩
      rw [toHex_length d]
      omega
    · simp only [hj] at hok
      simp at hok

theorem prependKeyNoTruncate_witness :
    prependKey (List.replicate 32 3) = List.replicate 32 3 ∧
      (toHex (List.replicate 33 3) = toHex (List.replicate 33 3) ∧
        (toHex (List.replicate 33 3)).length = 2 * (List.replicate 33 (3 : Nat)).length ∧
        64 < (toHex (List.replicate 33 3)).length) :=
  ⟨prependKeyNoTruncate.1 (List.replicate 32 3) (by decide),
   prependKeyNoTruncate.2 CW33 ksW "pw" cryptoW (List.replicate 32 7) [0, 255]
     (List.replicate 33 3) (toHex (List.replicate 33 3)) rfl rfl rfl (by decide) rfl⟩

/-- C1: for a keystore accepted by extractKeystore and a password whose
derived key fails the integrity check (the spec equates the two: a
wrong password is detected exactly by the MAC mismatch), getPrivateKey
computes the code sha3_256 of derivedKey bytes 16 to 32 followed by the
ciphertext (this is what the macAttempt hypothesis states), compares
its hex encoding strictly with keystore.crypto.mac, and fails with
WrongPassphrase.  The conclusion holds for every primitive record that
agrees with C on scrypt, pbkdf2 and sha3hex but is arbitrary on
decipher and privateKeyToAddress, so no decryption is attempted and
the result can never be DecipherError or a key. -/
theorem wrongPassphraseOnMacMismatch
    (parse : String → Option JValue) (inp : FileInput)
    (C C' : CryptoPrims) (ks : JValue) (pw : String)
    (co macJ : JValue) (dk ct : List Nat) (mh : String)
    (hs : C.scrypt = C'.scrypt) (hp : C.pbkdf2 = C'.pbkdf2) (hsh : C.sha3hex = C'.sha3hex)
    (_hacc : extractKeystore parse inp = .ok ks)
    (hderive : deriveKeyStage C ks pw = .ok (co, dk))
    (hmacatt : macAttempt C co dk = .ok (ct, mh))
    (hmacJ : getFieldE KSError.jsTypeError co "mac" = .ok macJ)
    (hmm : jEqStr macJ mh = false) :
    getPrivateKey C' ks pw = .error KSError.wrongPassphrase := by
  have hms : macStage C' co dk = .error KSError.wrongPassphrase := by
    rw [← macStage_congr hsh]
    unfold macStage
    have hca : catchAs KSError.unknownCryptoError (macAttempt C co dk) = .ok (ct, mh) := by
      rw [hmacatt]
      rfl
    simp only [hca, hmacJ, hmm]
    simp
  unfold getPrivateKey
  rw [← deriveKeyStage_congr hs hp ks pw]
  simp only [hderive, hms]

theorem wrongPassphraseOnMacMismatch_witness :
    getPrivateKey CWnoDecipher ksBadMac "pw" = .error KSError.wrongPassphrase :=
  wrongPassphraseOnMacMismatch (fun _ => some ksBadMac) (FileInput.text "f")
    CW CWnoDecipher ksBadMac "pw" cryptoBadMac (JValue.str "bb")
    (List.replicate 32 7) [0, 255] "aa" rfl rfl rfl rfl rfl rfl rfl rfl

/-- C2: getPrivateKey returns a private key only when the address
derived from it by privateKeyToAddress is strictly equal to
keystore.address (first part), and when every stage succeeds but the
derived address differs from keystore.address it fails with
WrongAddress, a failure distinct from WrongPassphrase (second part). -/
theorem addressCheckOnSuccess :
    (∀ (C : CryptoPrims) (ks : JValue) (pw pk : String),
      getPrivateKey C ks pw = .ok pk →
      getFieldE KSError.jsTypeError ks "address" =
        .ok (JValue.str (C.privateKeyToAddress pk))) ∧
    (∀ (C : CryptoPrims) (ks : JValue) (pw : String) (co addrJ : JValue)
      (dk ct d : List Nat),
      deriveKeyStage C ks pw = .ok (co, dk) → macStage C co dk = .ok ct →
      decipherAttempt C co dk ct = .ok d →
      getFieldE KSError.jsTypeError ks "address" = .ok addrJ →
      jEqStr addrJ (C.privateKeyToAddress (toHex (prependKey d))) = false →
      getPrivateKey C ks pw = .error KSError.wrongAddress) := by
  constructor
  · intro C ks pw pk h
    unfold getPrivateKey at h
    cases hd : deriveKeyStage C ks pw with
    | error e => simp only [hd] at h; simp at h
    | ok p =>
      simp only [hd] at h
      cases hm : macStage C p.1 p.2 with
      | error e => simp only [hm] at h; simp at h
      | ok ct =>
        simp only [hm] at h
        unfold decryptStage at h
        cases hdc : catchAs KSError.decipherError (decipherAttempt C p.1 p.2 ct) with
        | error e => simp only [hdc] at h; simp at h
        | ok d =>
          simp only [hdc] at h
          cases ha : getFieldE KSError.jsTypeError ks "address" with
          | error e => simp only [ha] at h; simp at h
          | ok addrJ =>
            simp only [ha] at h
            by_cases hj : jEqStr addrJ (C.privateKeyToAddress (toHex (prependKey d))) = true
            · simp only [hj, if_true] at h
              simp only [Except.ok.injEq] at h
              subst h
              exact congrArg Except.ok (jEqStr_iff.mp hj)
            · simp [hj] at h
  · intro C ks pw co addrJ dk ct d hderive hmacs hd ha hj
    unfold getPrivateKey
    simp only [hderive, hmacs]
    unfold decryptStage
    have hca : catchAs KSError.decipherError (decipherAttempt C co dk ct) = .ok d := by
      rw [hd]
      rfl
    simp only [hca, ha, hj]
    simp

theorem addressCheckOnSuccess_witness :
    getFieldE KSError.jsTypeError ksW "address" =
      .ok (JValue.str (CW.privateKeyToAddress pkW)) :=
  addressCheckOnSuccess.1 CW ksW "pw" pkW rfl

/-- C3 counterexample: the keystore ksP has kdf pbkdf2 and prf
hmac-sha512, yet extractKeystore accepts it (isValidKDFParams only
checks that prf is a string, never its value), and the
UnsupportedPBKDF2Parameters failure only appears later when
getPrivateKey runs.  This refutes the claim that such a document is
already rejected at parse time. -/
theorem badPrfAcceptedByExtract :
    extractKeystore (fun _ => some ksP) (FileInput.text "keystore.txt") = .ok ksP ∧
    getPrivateKey CW ksP "pw" = .error KSError.unsupportedPBKDF2Parameters :=
  ⟨rfl, rfl⟩

/-- C3 amended: for every keystore whose crypto.kdf is the string
pbkdf2 and whose kdfparams.prf is not strictly equal to the string
hmac-sha256, getPrivateKey fails with UnsupportedPBKDF2Parameters
before any key derivation (the conclusion holds for every primitive
record C); extractKeystore does not perform this check. -/
theorem badPrfFailsInGetPrivateKey
    (C : CryptoPrims) (ks : JValue) (pw : String) (co kpJ prfJ : JValue)
    (hco : getFieldE KSError.jsTypeError ks "crypto" = .ok co)
    (hkp : getFieldE KSError.jsTypeError co "kdfparams" = .ok kpJ)
    (hkdf : getFieldE KSError.jsTypeError co "kdf" = .ok (JValue.str "pbkdf2"))
    (hprf : getFieldE KSError.jsTypeError kpJ "prf" = .ok prfJ)
    (hne : jEqStr prfJ "hmac-sha256" = false) :
    getPrivateKey C ks pw = .error KSError.unsupportedPBKDF2Parameters := by
  have h1 : jEqStr (JValue.str "pbkdf2") "scrypt" = false := by decide
  have h2 : jEqStr (JValue.str "pbkdf2") "pbkdf2" = true := by decide
  unfold getPrivateKey deriveKeyStage
  simp [hco, hkp, hkdf, h1, h2, hprf, hne]

theorem badPrfFailsInGetPrivateKey_witness :
    getPrivateKey CWnoDecipher ksP "pw" = .error KSError.unsupportedPBKDF2Parameters :=
  badPrfFailsInGetPrivateKey CWnoDecipher ksP "pw" cryptoP kdfparamsP
    (JValue.str "hmac-sha512") rfl rfl rfl rfl rfl

/-- C4 counterexample: the document ksNullCrypto carries null in its
crypto field.  Because typeof null is the string object in JavaScript,
the schema conjunct typeof keystore.crypto equals object passes, and
the next conjunct then reads keystore.crypto.ciphertext on null, which
throws an uncaught TypeError: extractKeystore does not fail with
InvalidFormat on this malformed document. -/
theorem nullCryptoThrowsTypeError :
    extractKeystore (fun _ => some ksNullCrypto) (FileInput.text "keystore.txt") =
      .error ExtractError.jsTypeError ∧
    ExtractError.jsTypeError ≠ ExtractError.invalidFormat :=
  ⟨rfl, by decide⟩

/-- Declarative form of the schema requirement exactly as the
specification enumerates it (section 3): version present and equal to
3, id a string, address a string of 34 UTF-16 units, crypto an object
carrying ciphertext, cipher and mac strings, cipherparams an object
with an iv string, kdf a string whose kdfparams variant matches.  This
second definition follows the words of the specification and is
compared against the evaluation keystoreSchemaOK of the source. -/
def lookupIsStr (fs : List (String × JValue)) (k : String) : Bool :=
  match fs.lookup k with
  | some (.str _) => true
  | _ => false

def lookupIsNum (fs : List (String × JValue)) (k : String) : Bool :=
  match fs.lookup k with
  | some (.num _) => true
  | _ => false

def specKDFParamsB (kdf : String) (kpf : List (String × JValue)) : Bool :=
  lookupIsNum kpf "dklen" && lookupIsStr kpf "salt" &&
  ((kdf == "scrypt" && lookupIsNum kpf "n" && lookupIsNum kpf "r" && lookupIsNum kpf "p") ||
   (kdf == "pbkdf2" && lookupIsNum kpf "c" && lookupIsStr kpf "prf"))

def specSchemaB (ks : JValue) : Bool :=
  match ks with
  | .obj fields =>
    (match fields.lookup "version" with
     | some (.num n) => n == 3
     | _ => false) &&
    lookupIsStr fields "id" &&
    (match fields.lookup "address" with
     | some (.str a) => jsStringLength a == 34
     | _ => false) &&
    (match fields.lookup "crypto" with
     | some (.obj cf) =>
       lookupIsStr cf "ciphertext" &&
       (match cf.lookup "cipherparams" with
        | some (.obj cpf) => lookupIsStr cpf "iv"
        | _ => false) &&
       lookupIsStr cf "cipher" &&
       (match cf.lookup "kdf", cf.lookup "kdfparams" with
        | some (.str kdf), some (.obj kpf) => specKDFParamsB kdf kpf
        | _, _ => false) &&
       lookupIsStr cf "mac"
     | _ => false)
  | _ => false

/-- Positions at which the schema check dereferences a possibly null
value: the document itself, crypto, and (under an object crypto)
cipherparams and kdfparams.  A document with no null at these
positions can never make the validator throw. -/
def noNullWhereObjectExpected (ks : JValue) : Bool :=
  match ks with
  | .null => false
  | .obj fields =>
    (match fields.lookup "crypto" with
     | some JValue.null => false
     | some (.obj cf) =>
       (match cf.lookup "cipherparams" with
        | some JValue.null => false
        | _ => true) &&
       (match cf.lookup "kdfparams" with
        | some JValue.null => false
        | _ => true)
     | _ => true)
  | _ => true

theorem pathTypeIs3_ok_true {v : JValue} {k1 k2 k3 ty : String}
    (h : pathTypeIs3 v k1 k2 k3 ty = .ok true) :
    ∃ x, getPath3 v k1 k2 k3 = .ok x ∧ typeofJ x = ty := by
  unfold pathTypeIs3 at h
  cases hg : getPath3 v k1 k2 k3 with
  | error e => rw [hg] at h; exact absurd h (by simp)
  | ok x =>
    rw [hg] at h
    simp only [Except.ok.injEq] at h
    exact ⟨x, rfl, by simpa using h⟩

/-- A value of typeof object carrying a defined (non-undefined) field
must be an object node, and the field comes from its association
list. -/
theorem getField_obj_lookup {x y : JValue} {k : String}
    (hty : typeofJ x = "object") (hget : getField x k = .ok y)
    (hy : y ≠ JValue.undef) :
    ∃ fs, x = JValue.obj fs ∧ fs.lookup k = some y := by
  cases x with
  | obj fs =>
    refine ⟨fs, rfl, ?_⟩
    simp only [getField, Except.ok.injEq] at hget
    cases hl : fs.lookup k with
    | none => rw [hl] at hget; simp at hget; exact absurd hget.symm hy
    | some z => rw [hl] at hget; simp at hget; rw [hget]
  | null => simp [getField] at hget
  | undef => simp [typeofJ] at hty
  | arr xs =>
    simp only [getField, Except.ok.injEq] at hget
    exact absurd hget.symm hy
  | bool b => simp [typeofJ] at hty
  | num n => simp [typeofJ] at hty
  | str s => simp [typeofJ] at hty

theorem getField_lookup_of_ne_undef {fs : List (String × JValue)} {k : String} {y : JValue}
    (hget : getField (JValue.obj fs) k = .ok y) (hy : y ≠ JValue.undef) :
    fs.lookup k = some y := by
  simp only [getField, Except.ok.injEq] at hget
  cases hl : fs.lookup k with
  | none => rw [hl] at hget; simp at hget; exact absurd hget.symm hy
  | some z => rw [hl] at hget; simp at hget; rw [hget]

/-- Full inversion of a successful isValidKDFParams run: dklen and salt
are well typed and the kdf tag selects a fully well-typed variant. -/
theorem isValidKDFParams_ok_inv {kdf kp : JValue}
    (h : isValidKDFParams kdf kp = .ok true) :
    fieldTypeIs kp "dklen" "number" = .ok true ∧
    fieldTypeIs kp "salt" "string" = .ok true ∧
    ((jEqStr kdf "scrypt" = true ∧ fieldTypeIs kp "n" "number" = .ok true ∧
      fieldTypeIs kp "r" "number" = .ok true ∧ fieldTypeIs kp "p" "number" = .ok true) ∨
     (jEqStr kdf "pbkdf2" = true ∧ fieldTypeIs kp "c" "number" = .ok true ∧
      fieldTypeIs kp "prf" "string" = .ok true)) := by
  unfold isValidKDFParams at h
  rw [candE_eq_ok_true] at h
  obtain ⟨hdk, h⟩ := h
  rw [candE_eq_ok_true] at h
  obtain ⟨hsalt, h⟩ := h
  rw [corE_eq_ok_true] at h
  refine ⟨hdk, hsalt, ?_⟩
  rcases h with h | ⟨-, h⟩
  · left
    rw [candE_eq_ok_true] at h
    obtain ⟨hsc, h⟩ := h
    rw [candE_eq_ok_true] at h
    obtain ⟨hn, h⟩ := h
    rw [candE_eq_ok_true] at h
    obtain ⟨hr, hpp⟩ := h
    exact ⟨by simpa using hsc, hn, hr, hpp⟩
  · right
    rw [candE_eq_ok_true] at h
    obtain ⟨hpb, h⟩ := h
    rw [candE_eq_ok_true] at h
    obtain ⟨hc, hprf⟩ := h
    exact ⟨by simpa using hpb, hc, hprf⟩

/-- Soundness of the evaluated schema check against the declarative
specification schema: a document on which the source condition
evaluates to true satisfies every requirement the specification
enumerates. -/
theorem schemaOK_spec {ks : JValue} (h : keystoreSchemaOK ks = .ok true) :
    specSchemaB ks = true := by
  unfold keystoreSchemaOK at h
  simp only [candE_eq_ok_true] at h
  obtain ⟨h1, h2, h3, h4, h5, h6, h7, h8, h9, h10, h11, h12, h13, h14, h15⟩ := h
  have hty : typeofJ ks = "object" := by simpa using h1
  obtain ⟨vJ, hvf, hvty⟩ := fieldTypeIs_ok_true h2
  obtain ⟨n, rfl⟩ := typeofJ_number hvty
  obtain ⟨fields, rfl, hlv⟩ := getField_obj_lookup hty hvf (by simp)
  have hn3 : n = 3 := by
    unfold fieldEqNum at h3
    simp only [hvf] at h3
    simpa [jEqNum] using h3
  subst hn3
  obtain ⟨idJ, hidf, hidty⟩ := fieldTypeIs_ok_true h4
  obtain ⟨ids, rfl⟩ := typeofJ_string hidty
  have hlid := getField_lookup_of_ne_undef hidf (by simp)
  obtain ⟨aJ, haf, haty⟩ := fieldTypeIs_ok_true h5
  obtain ⟨addrs, rfl⟩ := typeofJ_string haty
  have hla := getField_lookup_of_ne_undef haf (by simp)
  have hlen : (jsStringLength addrs == 34) = true := by
    unfold fieldJsLenEq at h6
    simp only [haf] at h6
    simpa using h6
  obtain ⟨co, hco, hcoty⟩ := fieldTypeIs_ok_true h7
  obtain ⟨ctJ, hct, hctty⟩ := pathTypeIs2_ok_true h8
  unfold getPath2 at hct
  simp only [hco] at hct
  obtain ⟨cts, rfl⟩ := typeofJ_string hctty
  obtain ⟨cf, rfl⟩ := object_with_string_field hcoty hct rfl
  have hlco := getField_lookup_of_ne_undef hco (by simp)
  have hlct := getField_lookup_of_ne_undef hct (by simp)
  obtain ⟨cpJ, hcp, hcpty⟩ := pathTypeIs2_ok_true h9
  unfold getPath2 at hcp
  simp only [hco] at hcp
  obtain ⟨ivJ, hiv, hivty⟩ := pathTypeIs3_ok_true h10
  unfold getPath3 getPath2 at hiv
  simp only [hco, hcp] at hiv
  obtain ⟨ivs, rfl⟩ := typeofJ_string hivty
  obtain ⟨cpf, rfl⟩ := object_with_string_field hcpty hiv rfl
  have hlcp := getField_lookup_of_ne_undef hcp (by simp)
  have hliv := getField_lookup_of_ne_undef hiv (by simp)
  obtain ⟨cJ, hcip, hcipty⟩ := pathTypeIs2_ok_true h11
  unfold getPath2 at hcip
  simp only [hco] at hcip
  obtain ⟨ciphs, rfl⟩ := typeofJ_string hcipty
  have hlcip := getField_lookup_of_ne_undef hcip (by simp)
  obtain ⟨kdfJ, hkdf, hkdfty⟩ := pathTypeIs2_ok_true h12
  unfold getPath2 at hkdf
  simp only [hco] at hkdf
  obtain ⟨kdfs, rfl⟩ := typeofJ_string hkdfty
  have hlkdf := getField_lookup_of_ne_undef hkdf (by simp)
  obtain ⟨kpJ, hkp, hkpty⟩ := pathTypeIs2_ok_true h13
  unfold getPath2 at hkp
  simp only [hco] at hkp
  unfold kdfVariantOK getPath2 at h14
  simp only [hco, hkdf, hkp] at h14
  obtain ⟨hdk, hsalt, hvar⟩ := isValidKDFParams_ok_inv h14
  obtain ⟨dkJ, hdkf, hdkty⟩ := fieldTypeIs_ok_true hdk
  obtain ⟨dkn, rfl⟩ := typeofJ_number hdkty
  obtain ⟨kpf, rfl, hldk⟩ := getField_obj_lookup hkpty hdkf (by simp)
  have hlkp := getField_lookup_of_ne_undef hkp (by simp)
  obtain ⟨saltJ, hsf, hsfty⟩ := fieldTypeIs_ok_true hsalt
  obtain ⟨salts, rfl⟩ := typeofJ_string hsfty
  have hlsalt := getField_lookup_of_ne_undef hsf (by simp)
  obtain ⟨macJ, hmacf, hmacty⟩ := pathTypeIs2_ok_true h15
  unfold getPath2 at hmacf
  simp only [hco] at hmacf
  obtain ⟨macs, rfl⟩ := typeofJ_string hmacty
  have hlmac := getField_lookup_of_ne_undef hmacf (by simp)
  rcases hvar with ⟨hsc, hn, hr, hpp⟩ | ⟨hpb, hc, hprf⟩
  · have hkdfs : kdfs = "scrypt" := by simpa using jEqStr_iff.mp hsc
    subst hkdfs
    obtain ⟨nJ, hnf, hnty⟩ := fieldTypeIs_ok_true hn
    obtain ⟨nn, rfl⟩ := typeofJ_number hnty
    have hln := getField_lookup_of_ne_undef hnf (by simp)
    obtain ⟨rJ, hrf, hrty⟩ := fieldTypeIs_ok_true hr
    obtain ⟨rn, rfl⟩ := typeofJ_number hrty
    have hlr := getField_lookup_of_ne_undef hrf (by simp)
    obtain ⟨pJ, hpf, hpty⟩ := fieldTypeIs_ok_true hpp
    obtain ⟨pn, rfl⟩ := typeofJ_number hpty
    have hlp := getField_lookup_of_ne_undef hpf (by simp)
    simp [specSchemaB, specKDFParamsB, lookupIsStr, lookupIsNum, hlv, hlid, hla,
      hlen, hlco, hlct, hlcp, hliv, hlcip, hlkdf, hlkp, hldk, hlsalt, hln, hlr,
      hlp, hlmac]
  · have hkdfs : kdfs = "pbkdf2" := by simpa using jEqStr_iff.mp hpb
    subst hkdfs
    obtain ⟨cJ2, hcf2, hcty2⟩ := fieldTypeIs_ok_true hc
    obtain ⟨cn, rfl⟩ := typeofJ_number hcty2
    have hlc := getField_lookup_of_ne_undef hcf2 (by simp)
    obtain ⟨prfJ, hprff, hprfty⟩ := fieldTypeIs_ok_true hprf
    obtain ⟨prfs, rfl⟩ := typeofJ_string hprfty
    have hlprf := getField_lookup_of_ne_undef hprff (by simp)
    simp [specSchemaB, specKDFParamsB, lookupIsStr, lookupIsNum, hlv, hlid, hla,
      hlen, hlco, hlct, hlcp, hliv, hlcip, hlkdf, hlkp, hldk, hlsalt, hlc,
      hlprf, hlmac]

/- No-throw lemmas: the schema evaluation can only throw by accessing a
property of null, and only at the positions noNullWhereObjectExpected
guards, so on null-free documents it always returns a boolean. -/

theorem candE_ok_exists {a : Except Unit Bool} {b : Unit → Except Unit Bool}
    (ha : ∃ x, a = .ok x) (hb : a = .ok true → ∃ y, b () = .ok y) :
    ∃ z, candE a b = .ok z := by
  obtain ⟨x, hx⟩ := ha
  cases x with
  | false => exact ⟨false, by simp [hx, candE]⟩
  | true =>
    obtain ⟨y, hy⟩ := hb hx
    exact ⟨y, by simp [hx, candE, hy]⟩

theorem getField_ok_exists {v : JValue} (h1 : v ≠ JValue.null)
    (h2 : v ≠ JValue.undef) (k : String) : ∃ y, getField v k = .ok y := by
  cases v <;> first | exact absurd rfl h1 | exact absurd rfl h2 | exact ⟨_, rfl⟩

theorem fieldTypeIs_ok_exists {v : JValue} {k ty : String} (h1 : v ≠ JValue.null)
    (h2 : v ≠ JValue.undef) : ∃ b, fieldTypeIs v k ty = .ok b := by
  cases v <;> first | exact absurd rfl h1 | exact absurd rfl h2 | exact ⟨_, rfl⟩

theorem fieldEqNum_ok_exists {v : JValue} {k : String} {n : Int} (h1 : v ≠ JValue.null)
    (h2 : v ≠ JValue.undef) : ∃ b, fieldEqNum v k n = .ok b := by
  cases v <;> first | exact absurd rfl h1 | exact absurd rfl h2 | exact ⟨_, rfl⟩

theorem fieldJsLenEq_ok_of_str {v : JValue} {k : String} {m : Nat}
    (h : fieldTypeIs v k "string" = .ok true) : ∃ b, fieldJsLenEq v k m = .ok b := by
  obtain ⟨x, hg, hxty⟩ := fieldTypeIs_ok_true h
  obtain ⟨s, rfl⟩ := typeofJ_string hxty
  exact ⟨jsStringLength s == m, by simp [fieldJsLenEq, hg]⟩

theorem pathTypeIs2_ok_exists {v w : JValue} {k1 k2 ty : String}
    (hg : getField v k1 = .ok w) (h1 : w ≠ JValue.null) (h2 : w ≠ JValue.undef) :
    ∃ b, pathTypeIs2 v k1 k2 ty = .ok b := by
  unfold pathTypeIs2 getPath2
  simp only [hg]
  cases w <;> first | exact absurd rfl h1 | exact absurd rfl h2 | exact ⟨_, rfl⟩

theorem pathTypeIs3_ok_exists {v w u : JValue} {k1 k2 k3 ty : String}
    (hg1 : getField v k1 = .ok w) (hg2 : getField w k2 = .ok u)
    (h1 : u ≠ JValue.null) (h2 : u ≠ JValue.undef) :
    ∃ b, pathTypeIs3 v k1 k2 k3 ty = .ok b := by
  unfold pathTypeIs3 getPath3 getPath2
  simp only [hg1, hg2]
  cases u <;> first | exact absurd rfl h1 | exact absurd rfl h2 | exact ⟨_, rfl⟩

theorem isValidKDFParams_ok_exists {kdf kp : JValue} (h1 : kp ≠ JValue.null)
    (h2 : kp ≠ JValue.undef) : ∃ b, isValidKDFParams kdf kp = .ok b := by
  unfold isValidKDFParams
  refine candE_ok_exists (fieldTypeIs_ok_exists h1 h2) (fun _ => ?_)
  refine candE_ok_exists (fieldTypeIs_ok_exists h1 h2) (fun _ => ?_)
  obtain ⟨xa, hxa⟩ : ∃ b,
      candE (.ok (jEqStr kdf "scrypt")) (fun _ =>
        candE (fieldTypeIs kp "n" "number") (fun _ =>
        candE (fieldTypeIs kp "r" "number") (fun _ =>
        fieldTypeIs kp "p" "number"))) = .ok b := by
    refine candE_ok_exists ⟨_, rfl⟩ (fun _ => ?_)
    refine candE_ok_exists (fieldTypeIs_ok_exists h1 h2) (fun _ => ?_)
    exact candE_ok_exists (fieldTypeIs_ok_exists h1 h2)
      (fun _ => fieldTypeIs_ok_exists h1 h2)
  cases xa with
  | true => exact ⟨true, by simp [corE, hxa]⟩
  | false =>
    obtain ⟨xb, hxb⟩ : ∃ b,
        candE (.ok (jEqStr kdf "pbkdf2")) (fun _ =>
          candE (fieldTypeIs kp "c" "number") (fun _ =>
          fieldTypeIs kp "prf" "string")) = .ok b := by
      refine candE_ok_exists ⟨_, rfl⟩ (fun _ => ?_)
      exact candE_ok_exists (fieldTypeIs_ok_exists h1 h2)
        (fun _ => fieldTypeIs_ok_exists h1 h2)
    exact ⟨xb, by simp [corE, hxa, hxb]⟩

theorem schemaOK_no_throw {ks : JValue} (h : noNullWhereObjectExpected ks = true) :
    ∃ b, keystoreSchemaOK ks = .ok b := by
  cases ks with
  | null => simp [noNullWhereObjectExpected] at h
  | undef => exact ⟨false, rfl⟩
  | bool b => exact ⟨false, rfl⟩
  | num n => exact ⟨false, rfl⟩
  | str s => exact ⟨false, rfl⟩
  | arr xs => exact ⟨false, rfl⟩
  | obj fields =>
    unfold keystoreSchemaOK
    refine candE_ok_exists ⟨_, rfl⟩ (fun _ => ?_)
    refine candE_ok_exists (fieldTypeIs_ok_exists (by simp) (by simp)) (fun _ => ?_)
    refine candE_ok_exists (fieldEqNum_ok_exists (by simp) (by simp)) (fun _ => ?_)
    refine candE_ok_exists (fieldTypeIs_ok_exists (by simp) (by simp)) (fun _ => ?_)
    refine candE_ok_exists (fieldTypeIs_ok_exists (by simp) (by simp)) (fun h5 => ?_)
    refine candE_ok_exists (fieldJsLenEq_ok_of_str h5) (fun _ => ?_)
    refine candE_ok_exists (fieldTypeIs_ok_exists (by simp) (by simp)) (fun h7 => ?_)
    obtain ⟨co, hco, hcoty⟩ := fieldTypeIs_ok_true h7
    have hconu : co ≠ JValue.undef := by
      intro hcontra
      rw [hcontra] at hcoty
      exact absurd hcoty (by decide)
    have hconn : co ≠ JValue.null := by
      intro hcontra
      rw [hcontra] at hco
      have hlco : fields.lookup "crypto" = some JValue.null :=
        getField_lookup_of_ne_undef hco (by simp)
      unfold noNullWhereObjectExpected at h
      simp only [hlco] at h
      simp at h
    refine candE_ok_exists (pathTypeIs2_ok_exists hco hconn hconu) (fun _ => ?_)
    refine candE_ok_exists (pathTypeIs2_ok_exists hco hconn hconu) (fun h9 => ?_)
    obtain ⟨cpJ, hcp9, hcpty⟩ := pathTypeIs2_ok_true h9
    unfold getPath2 at hcp9
    simp only [hco] at hcp9
    have hcpu : cpJ ≠ JValue.undef := by
      intro hcontra
      rw [hcontra] at hcpty
      exact absurd hcpty (by decide)
    have hcpn : cpJ ≠ JValue.null := by
      intro hcontra
      rw [hcontra] at hcp9
      obtain ⟨cf, hcoeq, hlcp⟩ := getField_obj_lookup hcoty hcp9 (by simp)
      subst hcoeq
      have hlco : fields.lookup "crypto" = some (JValue.obj cf) :=
        getField_lookup_of_ne_undef hco (by simp)
      unfold noNullWhereObjectExpected at h
      simp only [hlco, hlcp] at h
      simp at h
    refine candE_ok_exists (pathTypeIs3_ok_exists hco hcp9 hcpn hcpu) (fun _ => ?_)
    refine candE_ok_exists (pathTypeIs2_ok_exists hco hconn hconu) (fun _ => ?_)
    refine candE_ok_exists (pathTypeIs2_ok_exists hco hconn hconu) (fun _ => ?_)
    refine candE_ok_exists (pathTypeIs2_ok_exists hco hconn hconu) (fun h13 => ?_)
    obtain ⟨kpJ, hkp13, hkpty⟩ := pathTypeIs2_ok_true h13
    unfold getPath2 at hkp13
    simp only [hco] at hkp13
    have hkpu : kpJ ≠ JValue.undef := by
      intro hcontra
      rw [hcontra] at hkpty
      exact absurd hkpty (by decide)
    have hkpn : kpJ ≠ JValue.null := by
      intro hcontra
      rw [hcontra] at hkp13
      obtain ⟨cf, hcoeq, hlkp⟩ := getField_obj_lookup hcoty hkp13 (by simp)
      subst hcoeq
      have hlco : fields.lookup "crypto" = some (JValue.obj cf) :=
        getField_lookup_of_ne_undef hco (by simp)
      unfold noNullWhereObjectExpected at h
      simp only [hlco, hlkp] at h
      simp at h
    refine candE_ok_exists ?_ (fun _ => ?_)
    · unfold kdfVariantOK getPath2
      simp only [hco, hkp13]
      obtain ⟨kdfJ, hkdfJ⟩ := getField_ok_exists hconn hconu "kdf"
      simp only [hkdfJ]
      exact isValidKDFParams_ok_exists hkpn hkpu
    · exact pathTypeIs2_ok_exists hco hconn hconu

/-- C4 amended: for every parsed document violating any schema
requirement the specification enumerates (a missing required field, a
wrongly typed field, version not equal to 3, an address whose UTF-16
length is not 34, or kdfparams not matching the variant its kdf tag
requires — all captured at once by specSchemaB being false),
extractKeystore rejects the document as a whole with one single
failure and never returns success (first part); when no null value
sits where the schema expects an object the failure is precisely
InvalidFormat (second part), while a null at such a position makes the
validator throw an uncaught TypeError instead, as the counterexample
shows; on success the parsed structure itself is returned and
satisfies every schema requirement, so there is no partial success
(third part). -/
theorem extractAllOrNothing :
    (∀ (parse : String → Option JValue) (s : String) (ks : JValue),
      parse s = some ks → specSchemaB ks = false →
      extractKeystore parse (FileInput.text s) = .error ExtractError.invalidFormat ∨
      extractKeystore parse (FileInput.text s) = .error ExtractError.jsTypeError) ∧
    (∀ (parse : String → Option JValue) (s : String) (ks : JValue),
      parse s = some ks → specSchemaB ks = false →
      noNullWhereObjectExpected ks = true →
      extractKeystore parse (FileInput.text s) = .error ExtractError.invalidFormat) ∧
    (∀ (parse : String → Option JValue) (inp : FileInput) (ks : JValue),
      extractKeystore parse inp = .ok ks →
      (∃ s, inp = FileInput.text s ∧ parse s = some ks) ∧ specSchemaB ks = true) := by
  refine ⟨?_, ?_, ?_⟩
  · intro parse s ks hp hspec
    cases hs : keystoreSchemaOK ks with
    | error e => right; simp [extractKeystore, hp, hs]
    | ok b =>
      cases b with
      | true =>
        have := schemaOK_spec hs
        rw [hspec] at this
        exact absurd this (by simp)
      | false => left; simp [extractKeystore, hp, hs]
  · intro parse s ks hp hspec hnull
    obtain ⟨b, hb⟩ := schemaOK_no_throw hnull
    cases b with
    | true =>
      have := schemaOK_spec hb
      rw [hspec] at this
      exact absurd this (by simp)
    | false => simp [extractKeystore, hp, hb]
  · intro parse inp ks hok
    obtain ⟨hinp, hschema⟩ := extractKeystore_ok_inv hok
    exact ⟨hinp, schemaOK_spec hschema⟩

theorem extractAllOrNothing_witness :
    extractKeystore (fun _ => some (JValue.obj [("version", JValue.num 5)]))
      (FileInput.text "t") = .error ExtractError.invalidFormat :=
  extractAllOrNothing.2.1 (fun _ => some (JValue.obj [("version", JValue.num 5)]))
    "t" (JValue.obj [("version", JValue.num 5)]) rfl rfl rfl

/-- C9: every keystore accepted by extractKeystore has crypto.kdf equal
to the string scrypt or the string pbkdf2 (enforced through
isValidKDFParams), and consequently getPrivateKey on such a keystore
can never fail with UnsupportedAlgorithm: that branch is unreachable
for validated input. -/
theorem acceptedKdfSupported
    (parse : String → Option JValue) (inp : FileInput) (ks : JValue)
    (C : CryptoPrims) (pw : String)
    (hacc : extractKeystore parse inp = .ok ks) :
    (∃ cf kdfs, getField ks "crypto" = .ok (JValue.obj cf) ∧
      getField (JValue.obj cf) "kdf" = .ok (JValue.str kdfs) ∧
      (kdfs = "scrypt" ∨ kdfs = "pbkdf2")) ∧
    getPrivateKey C ks pw ≠ .error KSError.unsupportedAlgorithm := by
  obtain ⟨-, hschema⟩ := extractKeystore_ok_inv hacc
  obtain ⟨cf, kdfs, hco, hkdf, hor⟩ := schemaOK_kdf hschema
  refine ⟨⟨cf, kdfs, hco, hkdf, hor⟩, ?_⟩
  unfold getPrivateKey
  cases hd : deriveKeyStage C ks pw with
  | error e =>
    have he : e ≠ KSError.unsupportedAlgorithm := by
      unfold deriveKeyStage at hd
      have hcoE : getFieldE KSError.jsTypeError ks "crypto" = .ok (JValue.obj cf) :=
        getFieldE_ok_iff.mpr hco
      have hkpE : getFieldE KSError.jsTypeError (JValue.obj cf) "kdfparams" =
          .ok ((cf.lookup "kdfparams").getD JValue.undef) := rfl
      have hkdfE : getFieldE KSError.jsTypeError (JValue.obj cf) "kdf" =
          .ok (JValue.str kdfs) := getFieldE_ok_iff.mpr hkdf
      simp only [hcoE, hkpE, hkdfE] at hd
      rcases hor with hsc | hpb
      · subst hsc
        have h1 : jEqStr (JValue.str "scrypt") "scrypt" = true := by decide
        simp only [h1, if_true] at hd
        cases hca : catchAs KSError.derivedKeyError
            (scryptAttempt C ((cf.lookup "kdfparams").getD JValue.undef) pw) with
        | error e1 =>
          simp only [hca] at hd
          simp at hd
          rw [← hd, catchAs_error hca]
          decide
        | ok dk => simp only [hca] at hd; simp at hd
      · subst hpb
        have h1 : jEqStr (JValue.str "pbkdf2") "scrypt" = false := by decide
        have h2 : jEqStr (JValue.str "pbkdf2") "pbkdf2" = true := by decide
        simp only [h1, h2, if_true] at hd
        simp only [Bool.false_eq_true, if_false] at hd
        cases hprf : getFieldE KSError.jsTypeError
            ((cf.lookup "kdfparams").getD JValue.undef) "prf" with
        | error e2 =>
          simp only [hprf] at hd
          simp at hd
          rw [← hd, getFieldE_error hprf]
          decide
        | ok prfJ =>
          simp only [hprf] at hd
          by_cases hj : jEqStr prfJ "hmac-sha256" = true
          · simp only [hj, if_true] at hd
            cases hca : catchAs KSError.derivedKeyError
                (pbkdf2Attempt C ((cf.lookup "kdfparams").getD JValue.undef) pw) with
            | error e1 =>
              simp only [hca] at hd
              simp at hd
              rw [← hd, catchAs_error hca]
              decide
            | ok dk => simp only [hca] at hd; simp at hd
          · simp [hj] at hd
            rw [← hd]
            decide
    simpa using he
  | ok p =>
    cases hm : macStage C p.1 p.2 with
    | error e =>
      rcases macStage_error_shape hm with h | h | h <;> subst h <;> simp [hm]
    | ok ct =>
      cases hdc : decryptStage C ks p.1 p.2 ct with
      | error e =>
        rcases decryptStage_error_shape hdc with h | h | h <;> subst h <;> simp [hm, hdc]
      | ok pk => simp [hm, hdc]

theorem acceptedKdfSupported_witness :
    (∃ cf kdfs, getField ksW "crypto" = .ok (JValue.obj cf) ∧
      getField (JValue.obj cf) "kdf" = .ok (JValue.str kdfs) ∧
      (kdfs = "scrypt" ∨ kdfs = "pbkdf2")) ∧
    getPrivateKey CW ksW "pw" ≠ .error KSError.unsupportedAlgorithm :=
  acceptedKdfSupported (fun _ => some ksW) (FileInput.text "f") ksW CW "pw" rfl
